import Mathlib

/-!
# Verification of the expresto middleware framework

Shallow embedding of the parts of the `expresto` code base that the
specification talks about: the route registry
(`src/lib/routing/route-registry.ts`), the security provider
(`src/lib/security/security-provider.ts`), the lifecycle hook manager
(`src/lib/hooks.ts`), the service registry
(`src/lib/services/service-registry.ts`), the cron scheduler
(`src/lib/scheduler/scheduler-service.ts`) and the scheduler startup hook
(`src/hooks/scheduler.startup.ts`).
-/

namespace Expresto

/-! ## Route registry (`src/lib/routing/route-registry.ts`)

`RegisteredRoute` carries the HTTP method, the mounted path, the security
mode and the source (controller file name).  The TypeScript type narrows
`method` and `secure` to string literal unions; we embed them as `String`
because the registry code manipulates them purely as strings
(`toLowerCase`, `localeCompare`). -/

structure RegisteredRoute where
  method : String
  path : String
  secure : String
  source : String
deriving DecidableEq, Repr

/-! ### `path.posix.normalize`

`RouteRegistry.register` normalizes the path with Node's
`path.posix.normalize`.  We embed Node's algorithm: split on `/`, drop
empty and `"."` segments, resolve `".."` (popping the previous segment;
for relative paths leading `".."`s are kept, for absolute paths they are
dropped at the root), then re-attach the leading slash and a trailing
slash when the input had one; the empty result collapses to `"/"`, `"."`
or `"./"`. -/

/-- Split a character list at every occurrence of `c` (the separators are
dropped; adjacent separators yield empty segments, as in Node's scanner). -/
def splitOnChar (c : Char) : List Char → List (List Char)
  | [] => [[]]
  | x :: xs =>
    let r := splitOnChar c xs
    if x = c then [] :: r
    else
      match r with
      | h :: t => (x :: h) :: t
      | [] => [[x]]

def normSegs (allowAboveRoot : Bool) : List (List Char) → List (List Char) → List (List Char)
  | acc, [] => acc.reverse
  | acc, seg :: rest =>
    if seg = [] ∨ seg = ['.'] then
      normSegs allowAboveRoot acc rest
    else if seg = ['.', '.'] then
      match acc with
      | [] => normSegs allowAboveRoot (if allowAboveRoot then [['.', '.']] else []) rest
      | top :: tl =>
        if top = ['.', '.'] then
          -- only reachable when allowAboveRoot kept leading ".."s
          normSegs allowAboveRoot (['.', '.'] :: acc) rest
        else
          normSegs allowAboveRoot tl rest
    else
      normSegs allowAboveRoot (seg :: acc) rest

def posixNormalizeChars (l : List Char) : List Char :=
  if l = [] then ['.']
  else
    let isAbs := l.head? = some '/'
    let trailing := l.getLast? = some '/'
    let segs := normSegs (!isAbs) [] (splitOnChar '/' l)
    let body := List.intercalate ['/'] segs
    if body = [] then
      if isAbs then ['/'] else if trailing then ['.', '/'] else ['.']
    else
      let body := if trailing then body ++ ['/'] else body
      if isAbs then '/' :: body else body

def posixNormalize (p : String) : String :=
  ⟨posixNormalizeChars p.data⟩

/-- `method.toLowerCase()` (character-wise lower-casing). -/
def lowerStr (s : String) : String :=
  ⟨s.data.map Char.toLower⟩

/-- `RouteRegistry.register`: lower-cases the method and normalizes the
path with `path.posix.normalize`, then appends the entry. -/
def normalizeEntry (e : RegisteredRoute) : RegisteredRoute :=
  { e with method := lowerStr e.method, path := posixNormalize e.path }

/-- The registry state is the `routes` array; `register` pushes the
normalized entry. -/
def register (rs : List RegisteredRoute) (e : RegisteredRoute) : List RegisteredRoute :=
  rs ++ [normalizeEntry e]

/-- `detectConflicts` groups routes under the key `` `${method} ${path}` ``. -/
def conflictKey (r : RegisteredRoute) : String :=
  r.method ++ " " ++ r.path

/-- First-occurrence-ordered list of distinct conflict keys (JS `Map`
preserves insertion order). -/
def conflictKeys (rs : List RegisteredRoute) : List String :=
  (rs.map conflictKey).dedup

/-- `RouteRegistry.detectConflicts`: one message per key whose group has
more than one entry, listing every entry's `source(secure)`. -/
def detectConflicts (rs : List RegisteredRoute) : List String :=
  (conflictKeys rs).filterMap fun k =>
    let group := rs.filter fun r => conflictKey r = k
    if group.length > 1 then
      some ("Route conflict for [" ++ k ++ "] in: " ++
        String.intercalate ", " (group.map fun r => r.source ++ "(" ++ r.secure ++ ")"))
    else
      none

/-! ### `RouteRegistry.getSorted`

The comparator sorts by `(method, path, secure)`: each component compared
with `localeCompare`, embedded as the lexicographic (code-point) order on
the characters.  JavaScript `Array.prototype.sort` is a stable comparator
sort; we embed it as a stable insertion sort over the relation
"comparator value ≤ 0". -/

/-- `a.localeCompare(b) < 0` (code-point lexicographic order). -/
def strLt (a b : String) : Bool :=
  decide (a.data < b.data)

/-- The comparator of `getSorted`, as the relation "compares ≤ 0". -/
def routeLe (a b : RegisteredRoute) : Bool :=
  if a.method = b.method then
    if a.path = b.path then !strLt b.secure a.secure
    else strLt a.path b.path
  else strLt a.method b.method

def getSorted (rs : List RegisteredRoute) : List RegisteredRoute :=
  rs.insertionSort fun a b => routeLe a b = true

/-- The order `(method asc, path asc, secure asc)`, spelled out
lexicographically — the order the spec says `getSorted` produces. -/
def routeLexLe (a b : RegisteredRoute) : Prop :=
  a.method.data < b.method.data ∨
    (a.method = b.method ∧ (a.path.data < b.path.data ∨
      (a.path = b.path ∧ a.secure.data ≤ b.secure.data)))

/-- The sort key `(method, path, secure)` under the lexicographic product
order, used to reason about `routeLexLe`. -/
def routeKey (r : RegisteredRoute) : Lex (List Char × Lex (List Char × List Char)) :=
  toLex (r.method.data, toLex (r.path.data, r.secure.data))

/-! ## Security provider (`src/lib/security/security-provider.ts`) -/

/-- `config.auth.jwt`: every field optional in the JSON config. -/
structure JwtConfig where
  enabled : Option Bool
  secret : Option String
  algorithm : Option String
deriving DecidableEq, Repr

/-- `config.auth`. -/
structure AuthConfig where
  jwt : Option JwtConfig
  basicEnabled : Option Bool
deriving DecidableEq, Repr

/-- The slice of `AppConfig` the security provider reads. -/
structure AppConfigAuth where
  auth : Option AuthConfig
deriving DecidableEq, Repr

/-- Constructor line `this.jwtEnabled = auth?.jwt?.enabled ?? true`. -/
def jwtEnabledOf (c : AppConfigAuth) : Bool :=
  ((c.auth.bind (·.jwt)).bind (·.enabled)).getD true

/-- Constructor line `this.jwtSecret = auth?.jwt?.secret || 'default_secret'`
(`||` falls through on the empty string as well). -/
def jwtSecretOf (c : AppConfigAuth) : String :=
  match (c.auth.bind (·.jwt)).bind (·.secret) with
  | some s => if s = "" then "default_secret" else s
  | none => "default_secret"

/-- The argument of `guard(mode?: 'basic' | 'jwt' | boolean)`; `none`
models the argument left `undefined`. -/
inductive GuardArg where
  | basic
  | jwt
  | bool (b : Bool)
deriving DecidableEq, Repr

inductive SecMode where
  | basic
  | jwt
  | none
deriving DecidableEq, Repr

/-- The mode-selection chain at the top of `SecurityProvider.guard`. -/
def guardMode (jwtEnabled : Bool) (mode : Option GuardArg) : SecMode :=
  if mode = some .basic then .basic
  else if mode = some .jwt ∨ mode = some (.bool true) ∨ (mode = Option.none ∧ jwtEnabled) then .jwt
  else .none

/-- The dummy route metadata `guard` builds before calling
`createMiddleware`. -/
structure RouteSecurityMeta where
  mode : SecMode
  controller : String
  fullPath : String
  handlerPath : String
  method : String
deriving DecidableEq, Repr

/-- `SecurityProvider.guard`: the middleware it returns is
`createMiddleware(meta)`, fully determined by this metadata record. -/
def guard (jwtEnabled : Bool) (mode : Option GuardArg) : RouteSecurityMeta :=
  { mode := guardMode jwtEnabled mode
    controller := "unknown"
    fullPath := "unknown"
    handlerPath := "unknown"
    method := "unknown" }

/-- Structural `String.startsWith` (the inputs are ASCII, so character
positions and UTF-16 positions agree). -/
def isLeadOf : List Char → List Char → Bool
  | [], _ => true
  | _ :: _, [] => false
  | a :: as, b :: bs => a = b && isLeadOf as bs

def startsWithStr (s pre : String) : Bool :=
  isLeadOf pre.data s.data

/-- `authHeader.substring(7)` (ASCII prefix, so code-unit index 7 is
character index 7). -/
def dropStr (n : Nat) (s : String) : String :=
  ⟨s.data.drop n⟩

/-- Result of `handleJwt`: either the request proceeds (with the decoded
claims attached as `req.auth`/`req.user` when JWT ran), or an `HttpError`
with a status code is thrown. -/
inductive JwtResult (P : Type) where
  | proceed (auth : Option P)
  | httpError (status : Nat) (message : String)
deriving DecidableEq, Repr

/-- `SecurityProvider.handleJwt`.  `verify` abstracts
`verifyToken(token, secret, algorithm)`: `Except.error` models any
verification failure (bad signature, wrong algorithm, expired). -/
def handleJwt {P : Type} (jwtEnabled : Bool) (verify : String → Except String P)
    (authHeader : Option String) : JwtResult P :=
  if !jwtEnabled then .proceed Option.none
  else
    match authHeader with
    | Option.none => .httpError 401 "Unauthorized"
    | some h =>
      if !startsWithStr h "Bearer " then .httpError 401 "Unauthorized"
      else
        match verify (dropStr 7 h) with
        | .ok payload => .proceed (some payload)
        | .error _ => .httpError 403 "Forbidden"

/-- A concrete token verifier used to exercise `handleJwt`: accepts
exactly the token `"good"`. -/
def demoVerify (tok : String) : Except String Nat :=
  if tok = "good" then .ok 42 else .error "bad signature"

/-! ## Hook manager (`src/lib/hooks.ts`) -/

inductive LifecycleHook where
  | initializeHook
  | startup
  | preInit
  | customMiddleware
  | postInit
  | shutdown
  | security
deriving DecidableEq, Repr

/-- What `emit` did: which subscribers ran (by registration index, in
execution order), which errors were logged, and the error re-thrown to
the caller, if any. -/
structure EmitResult (ε : Type) where
  executed : List Nat
  logged : List (LifecycleHook × ε)
  thrown : Option ε
deriving DecidableEq, Repr

/-- The `for … await` loop of `HookManager.emit`, started at subscriber
index `i`.  A subscriber is `none` (returns normally) or `some e` (throws
`e`).  A throw is logged; for every hook except `CUSTOM_MIDDLEWARE` it is
re-thrown, aborting the loop. -/
def emitFrom (hook : LifecycleHook) (i : Nat) : List (Option ε) → EmitResult ε
  | [] => ⟨[], [], Option.none⟩
  | s :: rest =>
    match s with
    | Option.none =>
      let r := emitFrom hook (i + 1) rest
      ⟨i :: r.executed, r.logged, r.thrown⟩
    | some e =>
      if hook = .customMiddleware then
        let r := emitFrom hook (i + 1) rest
        ⟨i :: r.executed, (hook, e) :: r.logged, r.thrown⟩
      else
        ⟨[i], [(hook, e)], some e⟩

/-- `HookManager.emit` over the subscriber list registered for `hook`. -/
def emit (hook : LifecycleHook) (subs : List (Option ε)) : EmitResult ε :=
  emitFrom hook 0 subs

/-! ## Service registry (`src/lib/services/service-registry.ts`) -/

/-- A registered service instance, abstracted to its teardown surface:
`shutdownFn`/`closeFn` are `none` when the method is absent; when present,
`some none` returns normally and `some (some e)` throws `e`. -/
structure ServiceLike (ε : Type) where
  shutdownFn : Option (Option ε)
  closeFn : Option (Option ε)
deriving DecidableEq, Repr

inductive TeardownAction where
  | calledShutdown
  | calledClose
  | warnedNoMethod
deriving DecidableEq, Repr

/-- Which branch of `shutdownAll`'s if/else chain a service takes. -/
def chooseTeardown (s : ServiceLike ε) : TeardownAction :=
  match s.shutdownFn with
  | some _ => .calledShutdown
  | Option.none =>
    match s.closeFn with
    | some _ => .calledClose
    | Option.none => .warnedNoMethod

/-- The error the chosen teardown call throws, if any. -/
def teardownError (s : ServiceLike ε) : Option ε :=
  match s.shutdownFn with
  | some r => r
  | Option.none =>
    match s.closeFn with
    | some r => r
    | Option.none => Option.none

structure ShutdownTrace (ε : Type) where
  actions : List (String × TeardownAction)
  errorsLogged : List (String × ε)
deriving DecidableEq, Repr

/-- The `for … of this.services.entries()` loop of `shutdownAll`: each
entry gets its teardown action; a thrown error is caught and logged with
the service name, and the loop continues. -/
def shutdownLoop : List (String × ServiceLike ε) → ShutdownTrace ε
  | [] => ⟨[], []⟩
  | (name, svc) :: rest =>
    let r := shutdownLoop rest
    ⟨(name, chooseTeardown svc) :: r.actions,
      match teardownError svc with
      | some e => (name, e) :: r.errorsLogged
      | Option.none => r.errorsLogged⟩

/-- `ServiceRegistry.shutdownAll`: runs the loop, then
`this.services.clear()` — the second component is the service table after
the call. -/
def shutdownAll (svcs : List (String × ServiceLike ε)) :
    ShutdownTrace ε × List (String × ServiceLike ε) :=
  (shutdownLoop svcs, [])

/-- A service whose `shutdown` method succeeds. -/
def svcA : ServiceLike String := ⟨some Option.none, Option.none⟩

/-- A service whose `shutdown` method throws `"db busy"`. -/
def svcBad : ServiceLike String := ⟨some (some "db busy"), Option.none⟩

/-- A service with only a `close` method, which succeeds. -/
def svcC : ServiceLike String := ⟨Option.none, some Option.none⟩

/-! ## Scheduler (`src/lib/scheduler/scheduler-service.ts`)

The cron callback built in `SchedulerService.register` is modelled as a
state machine per job.  `fire` is a trigger firing (running the callback
up to starting `mod.run`), `complete` is the awaited `mod.run` finishing
(the `try/catch/finally` tail of the callback). -/

structure JobState where
  running : Bool
  started : Nat
  completed : Nat
  warnSkips : Nat
  leaderSkips : Nat
  errorsLogged : Nat
  /-- Fires queued for later execution.  The callback never enqueues
  anything: a skipped fire is dropped. -/
  queued : Nat
deriving DecidableEq, Repr

def initialJobState : JobState :=
  ⟨false, 0, 0, 0, 0, 0, 0⟩

/-- The `try { await mod.run(…) } catch { log } finally { running = false }`
tail of the callback.  `runError` is the error thrown by the job's run
function, if any; the second component is the error that escapes the
callback — the catch clause logs and does not re-throw, the finally clause
resets the flag. -/
def completeRun (st : JobState) (runError : Option String) : JobState × Option String :=
  if st.running then
    ({ st with
        running := false
        completed := st.completed + 1
        errorsLogged := st.errorsLogged + (match runError with | some _ => 1 | Option.none => 0) },
      Option.none)
  else (st, Option.none)

inductive JobEvent where
  | fire (leaderOk : Bool)
  | complete (runError : Option String)
deriving DecidableEq, Repr

/-- One step of the callback: the reentrancy guard (`if (scheduled.running)
… return`), the optional leader check, then `running = true` and the run
start; or the completion tail. -/
def jobStep (leaderOnly hasLeaderCheck : Bool) (st : JobState) : JobEvent → JobState
  | .fire leaderOk =>
    if st.running then { st with warnSkips := st.warnSkips + 1 }
    else if leaderOnly && hasLeaderCheck && !leaderOk then
      { st with leaderSkips := st.leaderSkips + 1 }
    else { st with running := true, started := st.started + 1 }
  | .complete runError => (completeRun st runError).1

/-- A job's state after a sequence of events, from the freshly registered
state. -/
def runTrace (leaderOnly hasLeaderCheck : Bool) (events : List JobEvent) : JobState :=
  events.foldl (jobStep leaderOnly hasLeaderCheck) initialJobState

/-! ## Scheduler startup hook (`src/hooks/scheduler.startup.ts`) -/

structure SchedulerJobCfg where
  enabled : Bool
  cron : String
  module : String
deriving DecidableEq, Repr

structure SchedulerCfg where
  enabled : Bool
  mode : Option String
  jobs : List (String × SchedulerJobCfg)
deriving DecidableEq, Repr

structure ClusterCfg where
  enabled : Bool
deriving DecidableEq, Repr

structure StartupConfig where
  scheduler : Option SchedulerCfg
  cluster : Option ClusterCfg
deriving DecidableEq, Repr

inductive StartupOutcome where
  /-- `'[Scheduler] disabled'` info log, hook returns. -/
  | disabledOff
  /-- `throw new Error(…)` — aborts startup. -/
  | fatal (msg : String)
  /-- `'[Scheduler] disabled (cluster mode active)'` warning, hook
  returns without creating the scheduler. -/
  | disabledCluster
  /-- Scheduler created and `init` run: the names of the enabled jobs it
  registered. -/
  | started (registered : List String)
deriving DecidableEq, Repr

/-- `config.cluster?.enabled` coerced to a boolean. -/
def clusterEnabled (cfg : StartupConfig) : Bool :=
  (cfg.cluster.map (·.enabled)).getD false

/-- The STARTUP hook body of `scheduler.startup.ts` combined with
`SchedulerService.init` (which skips jobs with `enabled` false). -/
def schedulerStartup (cfg : StartupConfig) : StartupOutcome :=
  match cfg.scheduler with
  | Option.none => .disabledOff
  | some sc =>
    if !sc.enabled then .disabledOff
    else if clusterEnabled cfg then
      if sc.mode = some "standalone" then
        .fatal "[Scheduler] standalone mode is not allowed with cluster enabled"
      else .disabledCluster
    else .started ((sc.jobs.filter (·.2.enabled)).map (·.1))

/-! ## Theorems -/

theorem posixNormalize_examples :
    posixNormalize "/api/test/" = "/api/test/" ∧ posixNormalize "." = "." ∧
      posixNormalize "/api//x/../test" = "/api/test" := by
  decide

theorem routeLexLe_iff_key (a b : RegisteredRoute) :
    routeLexLe a b ↔ routeKey a ≤ routeKey b := by
  simp only [routeLexLe, routeKey, Prod.Lex.le_iff, String.ext_iff]

theorem routeLe_iff (a b : RegisteredRoute) : routeLe a b = true ↔ routeLexLe a b := by
  unfold routeLe routeLexLe strLt
  split_ifs with h1 h2
  · simp [h1, h2, not_lt]
  · simp [h1, h2]
  · simp [h1]

theorem routeLe_trans (a b c : RegisteredRoute) (hab : routeLe a b = true)
    (hbc : routeLe b c = true) : routeLe a c = true := by
  rw [routeLe_iff, routeLexLe_iff_key] at *
  exact le_trans hab hbc

theorem routeLe_total (a b : RegisteredRoute) : routeLe a b = true ∨ routeLe b a = true := by
  rw [routeLe_iff, routeLe_iff, routeLexLe_iff_key, routeLexLe_iff_key]
  exact le_total _ _

/-- C9: `getSorted()` returns the registered routes ordered
lexicographically by `(method asc, path asc, secure asc)` — the output is
a permutation of the registry content and sorted under `routeLexLe`, and
being a pure function of the registry content it is deterministic; on the
routes `{POST /b, GET /b, GET /a}` it returns
`[GET /a, GET /b, POST /b]`. -/
theorem getSorted_order_contract :
    (∀ rs : List RegisteredRoute,
        (getSorted rs).Sorted routeLexLe ∧ (getSorted rs).Perm rs) ∧
      getSorted [⟨"post", "/b", "none", "a.ts"⟩, ⟨"get", "/b", "jwt", "b.ts"⟩,
          ⟨"get", "/a", "basic", "c.ts"⟩] =
        [⟨"get", "/a", "basic", "c.ts"⟩, ⟨"get", "/b", "jwt", "b.ts"⟩,
          ⟨"post", "/b", "none", "a.ts"⟩] := by
  constructor
  · intro rs
    constructor
    · haveI : IsTrans RegisteredRoute (fun a b => routeLe a b = true) := ⟨routeLe_trans⟩
      haveI : IsTotal RegisteredRoute (fun a b => routeLe a b = true) := ⟨routeLe_total⟩
      have h := List.sorted_insertionSort (fun a b => routeLe a b = true) rs
      exact h.imp fun hab => (routeLe_iff _ _).mp hab
    · exact List.perm_insertionSort _ rs
  · decide

/-- C1 (evaluation at the failing inputs): registering the same
`(method, path, source)` route twice makes `detectConflicts()` emit one
conflict message — not zero as the spec and the registry's own test suite
state — because the code flags every group with more than one entry
regardless of `source`; and two routes whose paths differ only in case
produce zero messages because the grouping key `` `${method} ${path}` ``
keeps the path's case, so grouping is not case-insensitive. -/
theorem detectConflicts_same_source_and_case_eval :
    (detectConflicts (register (register [] ⟨"get", "/api/test", "jwt", "controller.ts"⟩)
        ⟨"get", "/api/test", "jwt", "controller.ts"⟩) =
      ["Route conflict for [get /api/test] in: controller.ts(jwt), controller.ts(jwt)"]) ∧
    detectConflicts (register (register [] ⟨"get", "/API/TEST", "none", "a.ts"⟩)
        ⟨"get", "/api/test", "jwt", "b.ts"⟩) = [] := by
  decide

/-- C2 (evaluation at the failing inputs): `register` normalizes the path
with `path.posix.normalize`, which preserves a trailing slash and maps
`"."` to `"."` — so `register({path:"/api/test/"})` stores `"/api/test/"`
(not `"/api/test"`) and `register({path:"."})` stores `"."` (not `"/"`),
contradicting the spec and the registry's own test suite. -/
theorem register_path_normalization_eval :
    (register [] ⟨"get", "/api/test/", "jwt", "norm.ts"⟩ =
        [⟨"get", "/api/test/", "jwt", "norm.ts"⟩]) ∧
    (register [] ⟨"get", ".", "none", "dot.ts"⟩ = [⟨"get", ".", "none", "dot.ts"⟩]) ∧
    "/api/test/" ≠ "/api/test" ∧ "." ≠ "/" := by
  decide

/-- C3: with JWT globally enabled, `handleJwt` throws 401 Unauthorized
when the Authorization header is missing or does not start with
`"Bearer "`; when a token is present but verification fails it throws 403
Forbidden; when verification succeeds the decoded claims are attached and
the request proceeds. -/
theorem handleJwt_status_contract {P : Type} (verify : String → Except String P) (s : String) :
    (handleJwt true verify Option.none = .httpError 401 "Unauthorized") ∧
    (startsWithStr s "Bearer " = false →
      handleJwt true verify (some s) = .httpError 401 "Unauthorized") ∧
    (∀ e, startsWithStr s "Bearer " = true → verify (dropStr 7 s) = .error e →
      handleJwt true verify (some s) = .httpError 403 "Forbidden") ∧
    (∀ p, startsWithStr s "Bearer " = true → verify (dropStr 7 s) = .ok p →
      handleJwt true verify (some s) = .proceed (some p)) := by
  refine ⟨rfl, fun h1 => ?_, fun e h1 h2 => ?_, fun p h1 h2 => ?_⟩
  · simp [handleJwt, h1]
  · simp [handleJwt, h1, h2]
  · simp [handleJwt, h1, h2]

theorem handleJwt_status_contract_witness :
    handleJwt true demoVerify (some "Bearer good") = .proceed (some 42) ∧
    handleJwt true demoVerify (some "Bearer evil") = .httpError 403 "Forbidden" ∧
    handleJwt true demoVerify (some "Token x") = .httpError 401 "Unauthorized" ∧
    handleJwt true demoVerify Option.none = .httpError 401 "Unauthorized" :=
  ⟨(handleJwt_status_contract demoVerify "Bearer good").2.2.2 42 rfl rfl,
    (handleJwt_status_contract demoVerify "Bearer evil").2.2.1 "bad signature" rfl rfl,
    (handleJwt_status_contract demoVerify "Token x").2.1 rfl,
    (handleJwt_status_contract demoVerify "").1⟩

/-- C10: `auth.jwt.enabled` defaults to true when the configuration does
not specify it; `guard` invoked with the mode argument left `undefined`
while JWT is enabled returns exactly the middleware metadata that mode
`'jwt'` produces (hence the identical JWT-enforcing middleware); and an
unspecified mode selects the pass-through mode `'none'` precisely when
JWT is globally disabled. -/
theorem guard_default_jwt_contract (c : AppConfigAuth) (jwtE : Bool) :
    ((c.auth.bind (·.jwt)).bind (·.enabled) = Option.none → jwtEnabledOf c = true) ∧
    (guard true Option.none = guard true (some .jwt)) ∧
    (guardMode jwtE Option.none = SecMode.none ↔ jwtE = false) := by
  refine ⟨fun h => ?_, ?_, ?_⟩
  · simp [jwtEnabledOf, h]
  · rfl
  · cases jwtE <;> simp [guardMode]

theorem guard_default_jwt_contract_witness :
    jwtEnabledOf ⟨some ⟨some ⟨Option.none, some "s3cret", Option.none⟩, Option.none⟩⟩ = true ∧
    guard true Option.none = guard true (some .jwt) :=
  ⟨(guard_default_jwt_contract
        ⟨some ⟨some ⟨Option.none, some "s3cret", Option.none⟩, Option.none⟩⟩ true).1 rfl,
    (guard_default_jwt_contract ⟨Option.none⟩ true).2.1⟩

theorem emitFrom_all_none {ε} (hook : LifecycleHook) (i : Nat) (subs : List (Option ε))
    (h : ∀ s ∈ subs, s = Option.none) :
    emitFrom hook i subs = ⟨List.range' i subs.length, [], Option.none⟩ := by
  induction subs generalizing i with
  | nil => simp [emitFrom]
  | cons s rest ih =>
    have hs : s = Option.none := h s (List.mem_cons_self _ _)
    subst hs
    simp [emitFrom, ih (i + 1) (fun x hx => h x (List.mem_cons_of_mem _ hx)), List.range'_succ]

theorem emitFrom_custom {ε} (i : Nat) (subs : List (Option ε)) :
    emitFrom .customMiddleware i subs =
      ⟨List.range' i subs.length,
        subs.filterMap (fun s => s.map ((LifecycleHook.customMiddleware, ·))), Option.none⟩ := by
  induction subs generalizing i with
  | nil => simp [emitFrom]
  | cons s rest ih =>
    cases s <;> simp [emitFrom, ih, List.range'_succ]

theorem emitFrom_abort {ε} (hook : LifecycleHook) (hne : hook ≠ .customMiddleware)
    (i : Nat) (pre post : List (Option ε)) (e : ε) (hpre : ∀ s ∈ pre, s = Option.none) :
    emitFrom hook i (pre ++ some e :: post) =
      ⟨List.range' i (pre.length + 1), [(hook, e)], some e⟩ := by
  induction pre generalizing i with
  | nil => simp [emitFrom, hne, List.range'_succ]
  | cons s rest ih =>
    have hs : s = Option.none := hpre s (List.mem_cons_self _ _)
    subst hs
    simp [emitFrom, ih (i + 1) (fun x hx => hpre x (List.mem_cons_of_mem _ hx)),
      List.range'_succ]

/-- C4: `emit` runs the subscribers strictly sequentially in registration
order (the executed indices are `0, 1, …` in order, each awaited before
the next starts); when all succeed every subscriber runs and nothing is
thrown; when a subscriber throws on any phase except CUSTOM_MIDDLEWARE,
the error is logged with the phase name and re-thrown, and the remaining
subscribers of that emission do not run; on CUSTOM_MIDDLEWARE every error
is logged but swallowed and all remaining subscribers still run. -/
theorem emit_sequential_error_contract {ε} (hook : LifecycleHook)
    (subs pre post : List (Option ε)) (e : ε) :
    ((∀ s ∈ subs, s = Option.none) →
      emit hook subs = ⟨List.range subs.length, [], Option.none⟩) ∧
    (hook ≠ .customMiddleware → (∀ s ∈ pre, s = Option.none) →
      emit hook (pre ++ some e :: post) =
        ⟨List.range (pre.length + 1), [(hook, e)], some e⟩) ∧
    (hook = .customMiddleware →
      emit hook subs = ⟨List.range subs.length,
        subs.filterMap (fun s => s.map ((LifecycleHook.customMiddleware, ·))),
        Option.none⟩) := by
  refine ⟨fun h => ?_, fun hne hp => ?_, fun hc => ?_⟩
  · rw [emit, emitFrom_all_none hook 0 subs h, List.range_eq_range']
  · rw [emit, emitFrom_abort hook hne 0 pre post e hp, List.range_eq_range']
  · subst hc
    rw [emit, emitFrom_custom, List.range_eq_range']

theorem emit_sequential_error_contract_witness :
    emit (ε := String) LifecycleHook.startup [Option.none, Option.none] =
      ⟨List.range 2, [], Option.none⟩ ∧
    emit LifecycleHook.startup [Option.none, some "boom", Option.none] =
      ⟨List.range 2, [(LifecycleHook.startup, "boom")], some "boom"⟩ ∧
    emit LifecycleHook.customMiddleware [some "bad", Option.none] =
      ⟨List.range 2,
        [some "bad", Option.none].filterMap (fun s => s.map ((LifecycleHook.customMiddleware, ·))),
        Option.none⟩ :=
  ⟨(emit_sequential_error_contract LifecycleHook.startup [Option.none, Option.none] [] [] "x").1
      (by decide),
    (emit_sequential_error_contract LifecycleHook.startup [] [Option.none] [Option.none] "boom").2.1
      (by decide) (by decide),
    (emit_sequential_error_contract LifecycleHook.customMiddleware [some "bad", Option.none]
        [] [] "x").2.2 rfl⟩

theorem shutdownLoop_actions {ε} (svcs : List (String × ServiceLike ε)) :
    (shutdownLoop svcs).actions = svcs.map (fun p => (p.1, chooseTeardown p.2)) := by
  induction svcs with
  | nil => rfl
  | cons p rest ih =>
    obtain ⟨n, s⟩ := p
    simp [shutdownLoop, ih]

theorem shutdownLoop_errors {ε} (svcs : List (String × ServiceLike ε)) :
    (shutdownLoop svcs).errorsLogged =
      svcs.filterMap (fun p => (teardownError p.2).map ((p.1, ·))) := by
  induction svcs with
  | nil => rfl
  | cons p rest ih =>
    obtain ⟨n, s⟩ := p
    cases hts : teardownError s <;> simp [shutdownLoop, ih, hts]

/-- C5: `shutdownAll` visits every registered service in order, calling
`shutdown` when present, else `close` when present, else logging a
warning (`chooseTeardown`); a teardown error is caught and logged with
the service name and the iteration continues, so a failing service in the
middle leaves every other service's teardown untouched; afterwards the
service table is cleared unconditionally. -/
theorem shutdownAll_contract {ε} (svcs l₁ l₂ : List (String × ServiceLike ε))
    (n : String) (s : ServiceLike ε) (e : ε) :
    (shutdownAll svcs).2 = [] ∧
    (shutdownAll svcs).1.actions = svcs.map (fun p => (p.1, chooseTeardown p.2)) ∧
    (shutdownAll svcs).1.errorsLogged =
      svcs.filterMap (fun p => (teardownError p.2).map ((p.1, ·))) ∧
    (svcs = l₁ ++ (n, s) :: l₂ → teardownError s = some e →
      (n, e) ∈ (shutdownAll svcs).1.errorsLogged ∧
      (shutdownAll svcs).1.actions =
        (shutdownAll l₁).1.actions ++
          (n, chooseTeardown s) :: (shutdownAll l₂).1.actions) := by
  refine ⟨rfl, shutdownLoop_actions svcs, shutdownLoop_errors svcs, fun hsplit herr => ?_⟩
  subst hsplit
  constructor
  · simp [shutdownAll, shutdownLoop_errors, herr]
  · simp [shutdownAll, shutdownLoop_actions]

theorem shutdownAll_contract_witness :
    ("bad", "db busy") ∈
      (shutdownAll [("a", svcA), ("bad", svcBad), ("c", svcC)]).1.errorsLogged ∧
    (shutdownAll [("a", svcA), ("bad", svcBad), ("c", svcC)]).1.actions =
      (shutdownAll [("a", svcA)]).1.actions ++
        ("bad", chooseTeardown svcBad) :: (shutdownAll [("c", svcC)]).1.actions :=
  (shutdownAll_contract [("a", svcA), ("bad", svcBad), ("c", svcC)]
      [("a", svcA)] [("c", svcC)] "bad" svcBad "db busy").2.2.2 rfl rfl

theorem jobStep_inv (lo hlc : Bool) (st : JobState) (ev : JobEvent)
    (h : st.queued = 0 ∧
      st.started = st.completed + (if st.running then 1 else 0)) :
    (jobStep lo hlc st ev).queued = 0 ∧
      (jobStep lo hlc st ev).started =
        (jobStep lo hlc st ev).completed +
          (if (jobStep lo hlc st ev).running then 1 else 0) := by
  obtain ⟨hq, hs⟩ := h
  cases ev with
  | fire ok =>
    simp only [jobStep]
    split_ifs with h1 h2 <;> simp_all
  | complete err =>
    simp only [jobStep, completeRun]
    split_ifs with h1 <;> simp_all

/-- C6: the reentrancy guard of the cron callback — a fire arriving while
the job's `running` flag is set changes nothing but the warning counter
(it is not queued and starts no run); and along every event trace the
number of runs in flight (`started - completed`) equals the `running`
flag, so it never exceeds one: two runs of the same job never execute
concurrently. -/
theorem scheduler_reentrancy_guard (lo hlc ok : Bool) (st : JobState)
    (evs : List JobEvent) :
    (st.running = true →
      jobStep lo hlc st (.fire ok) = { st with warnSkips := st.warnSkips + 1 }) ∧
    ((runTrace lo hlc evs).queued = 0 ∧
      (runTrace lo hlc evs).started =
        (runTrace lo hlc evs).completed +
          (if (runTrace lo hlc evs).running then 1 else 0)) := by
  constructor
  · intro h
    simp [jobStep, h]
  · have key : ∀ st₀ : JobState,
        (st₀.queued = 0 ∧ st₀.started = st₀.completed + (if st₀.running then 1 else 0)) →
          ((evs.foldl (jobStep lo hlc) st₀).queued = 0 ∧
            (evs.foldl (jobStep lo hlc) st₀).started =
              (evs.foldl (jobStep lo hlc) st₀).completed +
                (if (evs.foldl (jobStep lo hlc) st₀).running then 1 else 0)) := by
      induction evs with
      | nil => exact fun st₀ h => h
      | cons ev rest ih =>
        intro st₀ h
        exact ih _ (jobStep_inv lo hlc st₀ ev h)
    exact key initialJobState (by simp [initialJobState])

theorem scheduler_reentrancy_guard_witness :
    jobStep false false ⟨true, 1, 0, 0, 0, 0, 0⟩ (.fire true) = ⟨true, 1, 0, 1, 0, 0, 0⟩ ∧
    (runTrace false false [.fire true, .fire true, .complete Option.none]).queued = 0 :=
  ⟨(scheduler_reentrancy_guard false false true ⟨true, 1, 0, 0, 0, 0, 0⟩ []).1 rfl,
    (scheduler_reentrancy_guard false false true ⟨true, 1, 0, 0, 0, 0, 0⟩
        [.fire true, .fire true, .complete Option.none]).2.1⟩

/-- C7: when the run function of a job in flight finishes — successfully
or by throwing — nothing escapes the callback (the catch clause logs, the
error is not propagated), the `running` flag is reset to false by the
finally clause, a thrown error bumps the scheduler's error log by exactly
one, and a subsequent fire of the job starts a new run. -/
theorem scheduler_error_containment (hlc ok : Bool) (st : JobState) (e : String)
    (err : Option String) (h : st.running = true) :
    (completeRun st err).2 = Option.none ∧
    (completeRun st err).1.running = false ∧
    (completeRun st (some e)).1.errorsLogged = st.errorsLogged + 1 ∧
    (completeRun st Option.none).1.errorsLogged = st.errorsLogged ∧
    (jobStep false hlc (completeRun st err).1 (.fire ok)).started =
      (completeRun st err).1.started + 1 := by
  simp [completeRun, jobStep, h]

theorem scheduler_error_containment_witness :
    (completeRun ⟨true, 1, 0, 0, 0, 0, 0⟩ (some "boom")).2 = Option.none ∧
    (completeRun ⟨true, 1, 0, 0, 0, 0, 0⟩ (some "boom")).1.running = false ∧
    (completeRun ⟨true, 1, 0, 0, 0, 0, 0⟩ (some "boom")).1.errorsLogged = 0 + 1 ∧
    (completeRun ⟨true, 1, 0, 0, 0, 0, 0⟩ Option.none).1.errorsLogged = 0 ∧
    (jobStep false false (completeRun ⟨true, 1, 0, 0, 0, 0, 0⟩ (some "boom")).1
        (.fire true)).started =
      (completeRun ⟨true, 1, 0, 0, 0, 0, 0⟩ (some "boom")).1.started + 1 :=
  scheduler_error_containment false true ⟨true, 1, 0, 0, 0, 0, 0⟩ "boom" (some "boom") rfl

/-- C8: with the scheduler enabled and cluster mode enabled, mode
`'standalone'` raises the fatal configuration error (aborting startup),
while any other mode — `'attached'` or unset — merely disables the
scheduler with a warning: no error, no scheduler created, no tasks
registered. -/
theorem schedulerStartup_cluster_contract (cfg : StartupConfig) (sc : SchedulerCfg)
    (hsc : cfg.scheduler = some sc) (hen : sc.enabled = true)
    (hcl : clusterEnabled cfg = true) :
    (sc.mode = some "standalone" →
      schedulerStartup cfg =
        .fatal "[Scheduler] standalone mode is not allowed with cluster enabled") ∧
    (sc.mode ≠ some "standalone" → schedulerStartup cfg = .disabledCluster) := by
  constructor <;> intro hm <;> simp [schedulerStartup, hsc, hen, hcl, hm]

theorem schedulerStartup_cluster_contract_witness :
    schedulerStartup
        ⟨some ⟨true, some "standalone", [("heartbeat", ⟨true, "* * * * *", "hb"⟩)]⟩,
          some ⟨true⟩⟩ =
      .fatal "[Scheduler] standalone mode is not allowed with cluster enabled" ∧
    schedulerStartup
        ⟨some ⟨true, some "attached", [("heartbeat", ⟨true, "* * * * *", "hb"⟩)]⟩,
          some ⟨true⟩⟩ =
      .disabledCluster ∧
    schedulerStartup ⟨some ⟨true, Option.none, []⟩, some ⟨true⟩⟩ = .disabledCluster :=
  ⟨(schedulerStartup_cluster_contract
        ⟨some ⟨true, some "standalone", [("heartbeat", ⟨true, "* * * * *", "hb"⟩)]⟩,
          some ⟨true⟩⟩
        ⟨true, some "standalone", [("heartbeat", ⟨true, "* * * * *", "hb"⟩)]⟩
        rfl rfl rfl).1 rfl,
    (schedulerStartup_cluster_contract
        ⟨some ⟨true, some "attached", [("heartbeat", ⟨true, "* * * * *", "hb"⟩)]⟩,
          some ⟨true⟩⟩
        ⟨true, some "attached", [("heartbeat", ⟨true, "* * * * *", "hb"⟩)]⟩
        rfl rfl rfl).2 (by decide),
    (schedulerStartup_cluster_contract ⟨some ⟨true, Option.none, []⟩, some ⟨true⟩⟩
        ⟨true, Option.none, []⟩ rfl rfl rfl).2 (by decide)⟩

end Expresto
